import Mathlib

/-!
Verification of the meal-catalog data layer (`kitchen_model.py`).

The store is modelled as a list of rows (the `meals` table) together with
the next auto-assigned primary key.  Prices are modelled as rationals,
mirroring the exact values the code compares against 0; counters are
naturals.  Each public operation of the Python module is embedded as a
pure function from a `Store` to `Except Err _`, following the source line
by line: validation order, lookup-before-mutation, the soft-delete flag,
the leaderboard filter and sort, and the error messages.
-/

namespace MealMax

/-- A row of the `meals` table, with the persisted schema
`meals(id PK, meal UNIQUE, cuisine, price, difficulty, battles DEFAULT 0,
wins DEFAULT 0, deleted DEFAULT false)`. -/
structure MealRow where
  id : Nat
  meal : String
  cuisine : String
  price : ℚ
  difficulty : String
  battles : Nat
  wins : Nat
  deleted : Bool
deriving Repr, DecidableEq

/-- The database state: the rows of the `meals` table plus the next
auto-increment primary key. -/
structure Store where
  rows : List MealRow
  nextId : Nat
deriving Repr, DecidableEq

/-- The empty `meals` table. -/
def emptyStore : Store := ⟨[], 1⟩

/-- Errors raised by the layer.  Every failure of `kitchen_model.py`
reaches the caller as a Python `ValueError` carrying a message (the
`sqlite3.IntegrityError` on duplicate names is caught inside
`create_meal` and re-raised as a `ValueError`), so a single constructor
carrying the message models the whole caller-visible error surface. -/
inductive Err where
  | valueError (msg : String)
deriving Repr, DecidableEq

/-- The `Meal` dataclass: `id, meal, cuisine, price, difficulty`. -/
structure Meal where
  id : Nat
  meal : String
  cuisine : String
  price : ℚ
  difficulty : String
deriving Repr, DecidableEq

/-- The check `difficulty in [LOW, MED, HIGH]` (as string labels). -/
def validDifficulty (d : String) : Bool :=
  d == "LOW" || d == "MED" || d == "HIGH"

/-- `Meal.__post_init__`: constructing a `Meal` raises `ValueError` when
`self.price < 0` or the difficulty is not LOW/MED/HIGH; otherwise the
dataclass instance is produced. -/
def Meal.make (id : Nat) (meal cuisine : String) (price : ℚ)
    (difficulty : String) : Except Err Meal :=
  if price < 0 then
    .error (.valueError "Price must be a positive value.")
  else if ¬ validDifficulty difficulty then
    .error (.valueError "Difficulty must be LOW, MED, or HIGH.")
  else
    .ok ⟨id, meal, cuisine, price, difficulty⟩

/-- `create_meal`: validates `price <= 0` and the difficulty, then
inserts `(meal, cuisine, price, difficulty)`; the `UNIQUE` constraint on
the `meal` column makes a duplicate name an `IntegrityError`, re-raised
as `ValueError`.  The schema defaults give the new row
`battles=0, wins=0, deleted=false`. -/
def create_meal (s : Store) (meal cuisine : String) (price : ℚ)
    (difficulty : String) : Except Err Store :=
  if price ≤ 0 then
    .error (.valueError "Invalid price: price must be a positive number.")
  else if ¬ validDifficulty difficulty then
    .error (.valueError "Invalid difficulty level: must be LOW, MED, or HIGH.")
  else if s.rows.any (fun r => r.meal == meal) then
    .error (.valueError ("Meal with name " ++ meal ++ " already exists"))
  else
    .ok ⟨s.rows ++ [⟨s.nextId, meal, cuisine, price, difficulty, 0, 0, false⟩],
         s.nextId + 1⟩

/-- `delete_meal`: fetches the `deleted` flag of the row by id; no row raises
the not-found `ValueError`, an already-true flag raises the
already-deleted `ValueError`; otherwise `UPDATE meals SET deleted = TRUE
WHERE id = ?`. -/
def delete_meal (s : Store) (meal_id : Nat) : Except Err Store :=
  match s.rows.find? (fun r => r.id == meal_id) with
  | none =>
      .error (.valueError ("Meal with ID " ++ toString meal_id ++ " not found"))
  | some row =>
      if row.deleted then
        .error (.valueError ("Meal with ID " ++ toString meal_id ++ " has been deleted"))
      else
        .ok ⟨s.rows.map (fun r => if r.id == meal_id then { r with deleted := true } else r),
             s.nextId⟩

/-- `get_meal_by_id`: `SELECT ... WHERE id = ?` then `fetchone`; a row
with the deleted flag set raises the has-been-deleted `ValueError`, no
row raises the not-found `ValueError`, and otherwise the row is rebuilt
through the validating `Meal` constructor. -/
def get_meal_by_id (s : Store) (meal_id : Nat) : Except Err Meal :=
  match s.rows.find? (fun r => r.id == meal_id) with
  | some row =>
      if row.deleted then
        .error (.valueError ("Meal with ID " ++ toString meal_id ++ " has been deleted"))
      else
        Meal.make row.id row.meal row.cuisine row.price row.difficulty
  | none =>
      .error (.valueError ("Meal with ID " ++ toString meal_id ++ " not found"))

/-- `get_meal_by_name`: same as `get_meal_by_id` with `WHERE meal = ?`. -/
def get_meal_by_name (s : Store) (meal_name : String) : Except Err Meal :=
  match s.rows.find? (fun r => r.meal == meal_name) with
  | some row =>
      if row.deleted then
        .error (.valueError ("Meal with name " ++ meal_name ++ " has been deleted"))
      else
        Meal.make row.id row.meal row.cuisine row.price row.difficulty
  | none =>
      .error (.valueError ("Meal with name " ++ meal_name ++ " not found"))

/-- `update_meal_stats`: fetches the `deleted` flag first (not-found and
already-deleted errors exactly as in `delete_meal`), then on a win
result executes `UPDATE meals SET battles = battles + 1,
wins = wins + 1`, on a loss result `UPDATE meals SET
battles = battles + 1`, and on any other result raises the
invalid-result `ValueError` without executing any update. -/
def update_meal_stats (s : Store) (meal_id : Nat) (result : String) :
    Except Err Store :=
  match s.rows.find? (fun r => r.id == meal_id) with
  | none =>
      .error (.valueError ("Meal with ID " ++ toString meal_id ++ " not found"))
  | some row =>
      if row.deleted then
        .error (.valueError ("Meal with ID " ++ toString meal_id ++ " has been deleted"))
      else if result == "win" then
        .ok ⟨s.rows.map (fun r =>
              if r.id == meal_id then { r with battles := r.battles + 1, wins := r.wins + 1 } else r),
             s.nextId⟩
      else if result == "loss" then
        .ok ⟨s.rows.map (fun r =>
              if r.id == meal_id then { r with battles := r.battles + 1 } else r),
             s.nextId⟩
      else
        .error (.valueError ("Invalid result: " ++ result ++ ". Expected win or loss."))

/-- One leaderboard entry: the row columns plus the derived
`win_pct` percentage. -/
structure LeaderboardEntry where
  id : Nat
  meal : String
  cuisine : String
  price : ℚ
  difficulty : String
  battles : Nat
  wins : Nat
  win_pct : ℚ
deriving Repr, DecidableEq

/-- The SQL expression `(wins * 1.0 / battles) AS win_pct`. -/
def win_pct_raw (r : MealRow) : ℚ := (r.wins : ℚ) / (r.battles : ℚ)

/-- Round half to even (the rounding used by the Python builtin `round`). -/
def roundHalfEven (q : ℚ) : ℤ :=
  if q - ⌊q⌋ < 1 / 2 then ⌊q⌋
  else if 1 / 2 < q - ⌊q⌋ then ⌊q⌋ + 1
  else if ⌊q⌋ % 2 = 0 then ⌊q⌋ else ⌊q⌋ + 1

/-- Round half to even of the fraction `a / b`, computed on naturals;
`roundHalfEven_natDiv` proves it agrees with `roundHalfEven` whenever
`0 < b`. -/
def roundHalfEvenDiv (a b : ℕ) : ℕ :=
  if 2 * (a % b) < b then a / b
  else if b < 2 * (a % b) then a / b + 1
  else if (a / b) % 2 = 0 then a / b else a / b + 1

/-- The Python call `round(x, 1)`: one decimal place, half to even. -/
def pyRound1 (q : ℚ) : ℚ := (roundHalfEven (q * 10) : ℚ) / 10

/-- Building the leaderboard dictionary for one selected row:
`win_pct = round(row[7] * 100, 1)`. -/
def entryOfRow (r : MealRow) : LeaderboardEntry :=
  ⟨r.id, r.meal, r.cuisine, r.price, r.difficulty, r.battles, r.wins,
   pyRound1 (win_pct_raw r * 100)⟩

/-- The `WHERE deleted = false AND battles > 0` selection. -/
def leaderboardRows (s : Store) : List MealRow :=
  s.rows.filter (fun r => !r.deleted && decide (0 < r.battles))

/-- Descending order on the `wins` column (`ORDER BY wins DESC`). -/
def winsGe (a b : MealRow) : Prop := b.wins ≤ a.wins

/-- Descending order on the computed `win_pct` column
(`ORDER BY win_pct DESC`). -/
def pctGe (a b : MealRow) : Prop := win_pct_raw b ≤ win_pct_raw a

instance : DecidableRel winsGe := fun a b => inferInstanceAs (Decidable (b.wins ≤ a.wins))

instance : DecidableRel pctGe := fun a b => inferInstanceAs (Decidable (win_pct_raw b ≤ win_pct_raw a))

instance : IsTotal MealRow winsGe :=
  ⟨fun a b => (Nat.le_total a.wins b.wins).symm.imp id id⟩

instance : IsTrans MealRow winsGe :=
  ⟨fun _ _ _ h1 h2 => le_trans h2 h1⟩

instance : IsTotal MealRow pctGe :=
  ⟨fun a b => (le_total (win_pct_raw a) (win_pct_raw b)).symm.imp id id⟩

instance : IsTrans MealRow pctGe :=
  ⟨fun _ _ _ h1 h2 => le_trans h2 h1⟩

/-- `get_leaderboard`: selects the non-deleted rows with at least one
battle, orders them descending by `win_pct` or by `wins` according to
`sort_by` (any other key raises the invalid-sort `ValueError` before the
query runs), and converts each row to its dictionary.  The SQL engine
fixes no tie order, so any stably-or-unstably sorted permutation is a
faithful model; insertion sort realises one such order. -/
def get_leaderboard (s : Store) (sort_by : String) :
    Except Err (List LeaderboardEntry) :=
  if sort_by == "win_pct" then
    .ok (((leaderboardRows s).insertionSort pctGe).map entryOfRow)
  else if sort_by == "wins" then
    .ok (((leaderboardRows s).insertionSort winsGe).map entryOfRow)
  else
    .error (.valueError ("Invalid sort_by parameter: " ++ sort_by))

/-! ### Helper lemmas -/

/-- Rebuilding with a function that leaves the search key alone moves
`find?` through `map`. -/
lemma find?_map_of_pres {α : Type} (f : α → α) (p : α → Bool)
    (hp : ∀ x, p (f x) = p x) :
    ∀ (l : List α) (r : α), l.find? p = some r → (l.map f).find? p = some (f r) := by
  intro l
  induction l with
  | nil => intro r h; simp at h
  | cons x xs ih =>
      intro r h
      have e1 : List.find? p (x :: xs) = if p x then some x else List.find? p xs := by
        cases hx : p x <;> simp [List.find?, hx]
      have e2 : List.find? p (f x :: List.map f xs) =
          if p x then some (f x) else List.find? p (List.map f xs) := by
        cases hx : p x <;> simp [List.find?, hp x, hx]
      rw [e1] at h
      rw [List.map_cons, e2]
      by_cases hx : p x = true
      · rw [if_pos hx] at h
        cases h
        rw [if_pos hx]
      · rw [if_neg hx] at h
        rw [if_neg hx]
        exact ih r h

/-- A decomposition of `a/b` into its integer and fractional parts,
cast to the rationals. -/
lemma natCast_div_split (a b : ℕ) (hb : 0 < b) :
    (a : ℚ) / (b : ℚ) = ((a / b : ℕ) : ℚ) + ((a % b : ℕ) : ℚ) / (b : ℚ) := by
  have hb' : (0 : ℚ) < (b : ℚ) := by exact_mod_cast hb
  have h2 := Nat.div_add_mod a b
  have hcast : (b : ℚ) * ((a / b : ℕ) : ℚ) + ((a % b : ℕ) : ℚ) = (a : ℚ) := by
    exact_mod_cast congrArg (Nat.cast : ℕ → ℚ) h2
  field_simp
  linarith

/-- The floor of a quotient of naturals is natural division. -/
lemma floor_natCast_div (a b : ℕ) (hb : 0 < b) :
    ⌊(a : ℚ) / (b : ℚ)⌋ = ((a / b : ℕ) : ℤ) := by
  have hb' : (0 : ℚ) < (b : ℚ) := by exact_mod_cast hb
  rw [Int.floor_eq_iff]
  constructor
  · push_cast
    exact Nat.cast_div_le
  · rw [div_lt_iff₀ hb']
    have h1 : a < (a / b + 1) * b := by
      have h2 := Nat.div_add_mod a b
      have h3 := Nat.mod_lt a hb
      calc a = b * (a / b) + a % b := h2.symm
        _ < b * (a / b) + b := by omega
        _ = (a / b + 1) * b := by ring
    rw [Int.cast_natCast]
    exact_mod_cast h1

/-- The fractional part of a quotient of naturals is the remainder over
the divisor. -/
lemma frac_natCast_div (a b : ℕ) (hb : 0 < b) :
    (a : ℚ) / (b : ℚ) - (⌊(a : ℚ) / (b : ℚ)⌋ : ℚ) = ((a % b : ℕ) : ℚ) / (b : ℚ) := by
  rw [floor_natCast_div a b hb, Int.cast_natCast]
  have := natCast_div_split a b hb
  linarith

/-- Comparing the remainder fraction against one half is comparing the
doubled remainder against the divisor. -/
lemma remainder_lt_half_iff (r b : ℕ) (hb : 0 < b) :
    ((r : ℚ) / (b : ℚ) < 1 / 2) ↔ 2 * r < b := by
  have hb' : (0 : ℚ) < (b : ℚ) := by exact_mod_cast hb
  rw [div_lt_div_iff₀ hb' (by norm_num : (0 : ℚ) < 2)]
  rw [show (r : ℚ) * 2 = ((2 * r : ℕ) : ℚ) from by push_cast; ring,
      show (1 : ℚ) * (b : ℚ) = ((b : ℕ) : ℚ) from by push_cast; ring]
  exact_mod_cast Iff.rfl

/-- The mirror image of `remainder_lt_half_iff`. -/
lemma half_lt_remainder_iff (r b : ℕ) (hb : 0 < b) :
    (1 / 2 < (r : ℚ) / (b : ℚ)) ↔ b < 2 * r := by
  have hb' : (0 : ℚ) < (b : ℚ) := by exact_mod_cast hb
  rw [div_lt_div_iff₀ (by norm_num : (0 : ℚ) < 2) hb']
  rw [show (1 : ℚ) * (b : ℚ) = ((b : ℕ) : ℚ) from by push_cast; ring,
      show (r : ℚ) * 2 = ((2 * r : ℕ) : ℚ) from by push_cast; ring]
  exact_mod_cast Iff.rfl

/-- `roundHalfEven` on a quotient of naturals agrees with the
natural-number computation `roundHalfEvenDiv`. -/
lemma roundHalfEven_natDiv (a b : ℕ) (hb : 0 < b) :
    roundHalfEven ((a : ℚ) / (b : ℚ)) = (roundHalfEvenDiv a b : ℤ) := by
  unfold roundHalfEven roundHalfEvenDiv
  rw [frac_natCast_div a b hb, floor_natCast_div a b hb]
  have hpar : ((a / b : ℕ) : ℤ) % 2 = 0 ↔ (a / b) % 2 = 0 := by omega
  simp only [remainder_lt_half_iff _ _ hb, half_lt_remainder_iff _ _ hb, hpar]
  split_ifs <;> push_cast <;> ring

/-! ### Claim theorems -/

/-- Claim C1: for every valid input (any name not already in the table,
any cuisine, price > 0, difficulty in LOW/MED/HIGH), `create_meal`
succeeds and a following `get_meal_by_name` with that name returns a
`Meal` whose fields equal the given name, cuisine, price and difficulty,
while the persisted row has `battles = 0`, `wins = 0` and
`deleted = false`. -/
theorem claim_C1_create_then_get (s : Store) (name cuisine : String)
    (price : ℚ) (difficulty : String)
    (hp : 0 < price) (hd : validDifficulty difficulty = true)
    (hfresh : ∀ r ∈ s.rows, r.meal ≠ name) :
    ∃ s2 m, create_meal s name cuisine price difficulty = .ok s2 ∧
      get_meal_by_name s2 name = .ok m ∧
      m.meal = name ∧ m.cuisine = cuisine ∧ m.price = price ∧
      m.difficulty = difficulty ∧
      ∃ r, s2.rows.find? (fun x => x.meal == name) = some r ∧
        r.battles = 0 ∧ r.wins = 0 ∧ r.deleted = false := by
  have hnp : ¬ price ≤ 0 := not_le.mpr hp
  have hany : s.rows.any (fun x => x.meal == name) = false := by
    rw [List.any_eq_false]
    intro x hx
    simpa using hfresh x hx
  have hcreate : create_meal s name cuisine price difficulty =
      .ok ⟨s.rows ++ [⟨s.nextId, name, cuisine, price, difficulty, 0, 0, false⟩],
           s.nextId + 1⟩ := by
    unfold create_meal
    rw [if_neg hnp, if_neg (by rw [hd]; simp), if_neg (by rw [hany]; simp)]
  have hnone : s.rows.find? (fun x => x.meal == name) = none := by
    rw [List.find?_eq_none]
    intro x hx
    simpa using hfresh x hx
  have hfind : (s.rows ++
      [(⟨s.nextId, name, cuisine, price, difficulty, 0, 0, false⟩ : MealRow)]).find?
        (fun x => x.meal == name) =
      some ⟨s.nextId, name, cuisine, price, difficulty, 0, 0, false⟩ := by
    rw [List.find?_append, hnone]
    simp [List.find?]
  have hget : get_meal_by_name
      ⟨s.rows ++ [⟨s.nextId, name, cuisine, price, difficulty, 0, 0, false⟩],
       s.nextId + 1⟩ name =
      .ok ⟨s.nextId, name, cuisine, price, difficulty⟩ := by
    unfold get_meal_by_name
    rw [hfind]
    simp only [Bool.false_eq_true, if_false]
    unfold Meal.make
    rw [if_neg (not_lt.mpr (le_of_lt hp)), if_neg (by rw [hd]; simp)]
  exact ⟨_, _, hcreate, hget, rfl, rfl, rfl, rfl, _, hfind, rfl, rfl, rfl⟩

/-- Witness for C1 at a concrete input: creating Spaghetti in the empty
store and reading it back. -/
theorem claim_C1_witness :
    (0 : ℚ) < 20 ∧ validDifficulty "MED" = true ∧
    (∃ s2 m, create_meal emptyStore "Spaghetti" "Italian" 20 "MED" = .ok s2 ∧
      get_meal_by_name s2 "Spaghetti" = .ok m ∧
      m.meal = "Spaghetti" ∧ m.cuisine = "Italian" ∧ m.price = 20 ∧
      m.difficulty = "MED" ∧
      ∃ r, s2.rows.find? (fun x => x.meal == "Spaghetti") = some r ∧
        r.battles = 0 ∧ r.wins = 0 ∧ r.deleted = false) :=
  ⟨by norm_num, rfl,
   claim_C1_create_then_get emptyStore "Spaghetti" "Italian" 20 "MED"
     (by norm_num) rfl (by intro r hr; simp [emptyStore] at hr)⟩

/-- Claim C2: on an existing non-deleted id, `update_meal_stats` with
`"win"` produces a single state in which the `battles` and `wins` of that row
are both incremented by exactly 1, and with `"loss"` a single state in
which only `battles` is incremented while `wins` is unchanged.  Both
column updates of the win case come from one `UPDATE` statement, so they
become visible in the same resulting state. -/
theorem claim_C2_update_stats (s : Store) (id : Nat) (r : MealRow)
    (hfind : s.rows.find? (fun x => x.id == id) = some r)
    (hdel : r.deleted = false) :
    (∃ s1 r1, update_meal_stats s id "win" = .ok s1 ∧
      s1.rows.find? (fun x => x.id == id) = some r1 ∧
      r1.battles = r.battles + 1 ∧ r1.wins = r.wins + 1) ∧
    (∃ s2 r2, update_meal_stats s id "loss" = .ok s2 ∧
      s2.rows.find? (fun x => x.id == id) = some r2 ∧
      r2.battles = r.battles + 1 ∧ r2.wins = r.wins) := by
  have hid : (r.id == id) = true := by
    have h := List.find?_some hfind
    simpa using h
  constructor
  · have hok : update_meal_stats s id "win" =
        .ok ⟨s.rows.map (fun x =>
              if x.id == id then { x with battles := x.battles + 1, wins := x.wins + 1 } else x),
             s.nextId⟩ := by
      unfold update_meal_stats
      rw [hfind]
      simp only [hdel, Bool.false_eq_true, if_false]
      rfl
    have hfind2 := find?_map_of_pres
        (fun x => if x.id == id then { x with battles := x.battles + 1, wins := x.wins + 1 } else x)
        (fun x => x.id == id)
        (by intro x; by_cases hx : (x.id == id) = true <;> simp [hx])
        s.rows r hfind
    simp only [hid, if_true] at hfind2
    exact ⟨_, _, hok, hfind2, rfl, rfl⟩
  · have hok : update_meal_stats s id "loss" =
        .ok ⟨s.rows.map (fun x =>
              if x.id == id then { x with battles := x.battles + 1 } else x),
             s.nextId⟩ := by
      unfold update_meal_stats
      rw [hfind]
      simp only [hdel, Bool.false_eq_true, if_false]
      rfl
    have hfind2 := find?_map_of_pres
        (fun x => if x.id == id then { x with battles := x.battles + 1 } else x)
        (fun x => x.id == id)
        (by intro x; by_cases hx : (x.id == id) = true <;> simp [hx])
        s.rows r hfind
    simp only [hid, if_true] at hfind2
    exact ⟨_, _, hok, hfind2, rfl, rfl⟩

/-- Witness for C2 at a concrete input: a one-row store with 3 battles
and 2 wins. -/
theorem claim_C2_witness :
    (∃ s1 r1, update_meal_stats ⟨[⟨1, "Pasta", "Italian", 10, "MED", 3, 2, false⟩], 2⟩ 1 "win" = .ok s1 ∧
      s1.rows.find? (fun x => x.id == 1) = some r1 ∧
      r1.battles = 3 + 1 ∧ r1.wins = 2 + 1) ∧
    (∃ s2 r2, update_meal_stats ⟨[⟨1, "Pasta", "Italian", 10, "MED", 3, 2, false⟩], 2⟩ 1 "loss" = .ok s2 ∧
      s2.rows.find? (fun x => x.id == 1) = some r2 ∧
      r2.battles = 3 + 1 ∧ r2.wins = 2) :=
  claim_C2_update_stats ⟨[⟨1, "Pasta", "Italian", 10, "MED", 3, 2, false⟩], 2⟩ 1
    ⟨1, "Pasta", "Italian", 10, "MED", 3, 2, false⟩ rfl rfl

/-- Every entry of a sorted-and-mapped leaderboard comes from a stored
row that passed the `deleted = false AND battles > 0` filter. -/
lemma mem_sorted_entries {s : Store} {rel : MealRow → MealRow → Prop}
    [DecidableRel rel] {e : LeaderboardEntry}
    (he : e ∈ ((leaderboardRows s).insertionSort rel).map entryOfRow) :
    ∃ r, r ∈ s.rows ∧ r.deleted = false ∧ 0 < r.battles ∧ e = entryOfRow r := by
  obtain ⟨r, hr, hre⟩ := List.mem_map.mp he
  rw [List.mem_insertionSort] at hr
  obtain ⟨hmem, hcond⟩ := List.mem_filter.mp hr
  simp only [Bool.and_eq_true, Bool.not_eq_true', decide_eq_true_eq] at hcond
  exact ⟨r, hmem, hcond.1, hcond.2, hre.symm⟩

/-- Claim C3: for every store state, `get_leaderboard "wins"` and
`get_leaderboard "win_pct"` return exactly the rows with
`deleted = false` and `battles > 0` (a permutation of the filtered
table, mapped to entries), ordered descending by the chosen key
(`wins`, resp. the `wins/battles` ratio the SQL `ORDER BY win_pct DESC`
sorts on); every other `sort_by` value fails with the invalid-parameter
`ValueError` and returns no rows. -/
theorem claim_C3_leaderboard (s : Store) (sb : String) :
    (sb = "wins" → ∃ l, get_leaderboard s sb = .ok l ∧
      l.Perm ((leaderboardRows s).map entryOfRow) ∧
      List.Sorted (fun a b => b.wins ≤ a.wins) l) ∧
    (sb = "win_pct" → ∃ l, get_leaderboard s sb = .ok l ∧
      l.Perm ((leaderboardRows s).map entryOfRow) ∧
      List.Sorted (fun a b =>
        (b.wins : ℚ) / (b.battles : ℚ) ≤ (a.wins : ℚ) / (a.battles : ℚ)) l) ∧
    (sb ≠ "wins" → sb ≠ "win_pct" →
      get_leaderboard s sb =
        .error (.valueError ("Invalid sort_by parameter: " ++ sb))) := by
  refine ⟨?_, ?_, ?_⟩
  · intro h
    subst h
    refine ⟨((leaderboardRows s).insertionSort winsGe).map entryOfRow, ?_, ?_, ?_⟩
    · unfold get_leaderboard
      rw [if_neg (by decide), if_pos (by decide)]
    · exact (List.perm_insertionSort winsGe (leaderboardRows s)).map entryOfRow
    · exact List.pairwise_map.mpr
        ((List.sorted_insertionSort winsGe (leaderboardRows s)).imp (fun h => h))
  · intro h
    subst h
    refine ⟨((leaderboardRows s).insertionSort pctGe).map entryOfRow, ?_, ?_, ?_⟩
    · unfold get_leaderboard
      rw [if_pos (by decide)]
    · exact (List.perm_insertionSort pctGe (leaderboardRows s)).map entryOfRow
    · exact List.pairwise_map.mpr
        ((List.sorted_insertionSort pctGe (leaderboardRows s)).imp (fun h => h))
  · intro h1 h2
    unfold get_leaderboard
    rw [if_neg (by simpa using h2), if_neg (by simpa using h1)]

/-- Witness for C3: the three branches exercised at a concrete store and
at the sort keys "wins", "win_pct" and "points". -/
theorem claim_C3_witness :
    (∃ l, get_leaderboard ⟨[⟨1, "Pasta", "Italian", 10, "MED", 10, 8, false⟩], 2⟩ "wins" = .ok l ∧
      l.Perm ((leaderboardRows ⟨[⟨1, "Pasta", "Italian", 10, "MED", 10, 8, false⟩], 2⟩).map entryOfRow) ∧
      List.Sorted (fun a b => b.wins ≤ a.wins) l) ∧
    (∃ l, get_leaderboard ⟨[⟨1, "Pasta", "Italian", 10, "MED", 10, 8, false⟩], 2⟩ "win_pct" = .ok l ∧
      l.Perm ((leaderboardRows ⟨[⟨1, "Pasta", "Italian", 10, "MED", 10, 8, false⟩], 2⟩).map entryOfRow) ∧
      List.Sorted (fun a b =>
        (b.wins : ℚ) / (b.battles : ℚ) ≤ (a.wins : ℚ) / (a.battles : ℚ)) l) ∧
    get_leaderboard ⟨[⟨1, "Pasta", "Italian", 10, "MED", 10, 8, false⟩], 2⟩ "points" =
      .error (.valueError ("Invalid sort_by parameter: " ++ "points")) :=
  ⟨(claim_C3_leaderboard ⟨[⟨1, "Pasta", "Italian", 10, "MED", 10, 8, false⟩], 2⟩ "wins").1 rfl,
   (claim_C3_leaderboard ⟨[⟨1, "Pasta", "Italian", 10, "MED", 10, 8, false⟩], 2⟩ "win_pct").2.1 rfl,
   (claim_C3_leaderboard ⟨[⟨1, "Pasta", "Italian", 10, "MED", 10, 8, false⟩], 2⟩ "points").2.2
     (by decide) (by decide)⟩

/-- Claim C4: every leaderboard entry has `battles > 0` and carries
`win_pct = round(100 * wins / battles, 1)` — one decimal place, computed
at read time from the counters of the entry itself (`MealRow` stores no
`win_pct` column). -/
theorem claim_C4_win_pct (s : Store) (sb : String) (l : List LeaderboardEntry)
    (h : get_leaderboard s sb = .ok l) :
    ∀ e ∈ l, 0 < e.battles ∧
      e.win_pct = pyRound1 (100 * (e.wins : ℚ) / (e.battles : ℚ)) := by
  intro e he
  unfold get_leaderboard at h
  by_cases h1 : (sb == "win_pct") = true
  · rw [if_pos h1] at h
    cases h
    obtain ⟨r, hmem, hdel, hb, hre⟩ := mem_sorted_entries he
    subst hre
    refine ⟨hb, ?_⟩
    show pyRound1 (win_pct_raw r * 100) = pyRound1 (100 * (r.wins : ℚ) / (r.battles : ℚ))
    exact congrArg pyRound1 (by unfold win_pct_raw; ring)
  · rw [if_neg h1] at h
    by_cases h2 : (sb == "wins") = true
    · rw [if_pos h2] at h
      cases h
      obtain ⟨r, hmem, hdel, hb, hre⟩ := mem_sorted_entries he
      subst hre
      refine ⟨hb, ?_⟩
      show pyRound1 (win_pct_raw r * 100) = pyRound1 (100 * (r.wins : ℚ) / (r.battles : ℚ))
      exact congrArg pyRound1 (by unfold win_pct_raw; ring)
    · rw [if_neg h2] at h
      simp at h

/-- One concrete catalog row used by the C4 witness: 10 battles, 8 wins. -/
def pastaRow : MealRow := ⟨1, "Pasta", "Italian", 10, "MED", 10, 8, false⟩

/-- Witness for C4: on the one-row store with `wins = 8` and
`battles = 10`, the single leaderboard entry satisfies the rounding
formula and its `win_pct` is exactly `80`. -/
theorem claim_C4_witness :
    (∀ e ∈ [entryOfRow pastaRow], 0 < e.battles ∧
      e.win_pct = pyRound1 (100 * (e.wins : ℚ) / (e.battles : ℚ))) ∧
    (entryOfRow pastaRow).win_pct = 80 := by
  constructor
  · exact claim_C4_win_pct ⟨[pastaRow], 2⟩ "wins" [entryOfRow pastaRow] rfl
  · show pyRound1 (win_pct_raw pastaRow * 100) = 80
    have harg : win_pct_raw pastaRow * 100 * 10 = ((8000 : ℕ) : ℚ) / ((10 : ℕ) : ℚ) := by
      show (((8 : ℕ) : ℚ) / ((10 : ℕ) : ℚ)) * 100 * 10 = _
      norm_num
    unfold pyRound1
    rw [harg, roundHalfEven_natDiv 8000 10 (by norm_num)]
    norm_num [roundHalfEvenDiv]

/-- Mapping a row transformation that leaves a projection alone leaves
the projected list alone. -/
lemma map_map_pres {α β : Type} (g : α → β) (f : α → α)
    (hp : ∀ x, g (f x) = g x) :
    ∀ l : List α, (l.map f).map g = l.map g
  | [] => rfl
  | x :: xs => by simp [hp x, map_map_pres g f hp xs]

/-- Claim C5: both lookups fail with a `ValueError` when no row matches
and when the matching row is soft-deleted — the same caller-visible
error kind (the module raises only `ValueError` from these paths), with
the message referencing the lookup key (the id, resp. the name). -/
theorem claim_C5_lookup_errors (s : Store) (id : Nat) (name : String) :
    (s.rows.find? (fun x => x.id == id) = none →
      get_meal_by_id s id =
        .error (.valueError ("Meal with ID " ++ toString id ++ " not found"))) ∧
    (∀ r, s.rows.find? (fun x => x.id == id) = some r → r.deleted = true →
      get_meal_by_id s id =
        .error (.valueError ("Meal with ID " ++ toString id ++ " has been deleted"))) ∧
    (s.rows.find? (fun x => x.meal == name) = none →
      get_meal_by_name s name =
        .error (.valueError ("Meal with name " ++ name ++ " not found"))) ∧
    (∀ r, s.rows.find? (fun x => x.meal == name) = some r → r.deleted = true →
      get_meal_by_name s name =
        .error (.valueError ("Meal with name " ++ name ++ " has been deleted"))) := by
  refine ⟨?_, ?_, ?_, ?_⟩
  · intro h
    unfold get_meal_by_id
    rw [h]
  · intro r h hdel
    unfold get_meal_by_id
    rw [h]
    simp [hdel]
  · intro h
    unfold get_meal_by_name
    rw [h]
  · intro r h hdel
    unfold get_meal_by_name
    rw [h]
    simp [hdel]

/-- Witness for C5: a store holding only a soft-deleted Pasta row; id 2
and name "Sushi" are absent, id 1 and name "Pasta" are deleted. -/
theorem claim_C5_witness :
    (get_meal_by_id ⟨[⟨1, "Pasta", "Italian", 10, "MED", 0, 0, true⟩], 2⟩ 2 =
      .error (.valueError ("Meal with ID " ++ toString 2 ++ " not found"))) ∧
    (get_meal_by_id ⟨[⟨1, "Pasta", "Italian", 10, "MED", 0, 0, true⟩], 2⟩ 1 =
      .error (.valueError ("Meal with ID " ++ toString 1 ++ " has been deleted"))) ∧
    (get_meal_by_name ⟨[⟨1, "Pasta", "Italian", 10, "MED", 0, 0, true⟩], 2⟩ "Sushi" =
      .error (.valueError ("Meal with name " ++ "Sushi" ++ " not found"))) ∧
    (get_meal_by_name ⟨[⟨1, "Pasta", "Italian", 10, "MED", 0, 0, true⟩], 2⟩ "Pasta" =
      .error (.valueError ("Meal with name " ++ "Pasta" ++ " has been deleted"))) :=
  ⟨(claim_C5_lookup_errors ⟨[⟨1, "Pasta", "Italian", 10, "MED", 0, 0, true⟩], 2⟩ 2 "Sushi").1 rfl,
   (claim_C5_lookup_errors ⟨[⟨1, "Pasta", "Italian", 10, "MED", 0, 0, true⟩], 2⟩ 1 "Pasta").2.1
     ⟨1, "Pasta", "Italian", 10, "MED", 0, 0, true⟩ rfl rfl,
   (claim_C5_lookup_errors ⟨[⟨1, "Pasta", "Italian", 10, "MED", 0, 0, true⟩], 2⟩ 2 "Sushi").2.2.1 rfl,
   (claim_C5_lookup_errors ⟨[⟨1, "Pasta", "Italian", 10, "MED", 0, 0, true⟩], 2⟩ 1 "Pasta").2.2.2
     ⟨1, "Pasta", "Italian", 10, "MED", 0, 0, true⟩ rfl rfl⟩

/-- Claim C6: `delete_meal` fails with the not-found `ValueError` on an
unknown id and with the already-deleted `ValueError` on a soft-deleted
row; on a live row it succeeds, after which both lookups on that row
fail (the `NotFound` kind of the spec — the `ValueError` of the module), and no
row is physically removed (the list of row ids is unchanged).  The name
lookup conclusion assumes the `UNIQUE` meal-name constraint of the schema:
every row carrying the name of the deleted row is that row. -/
theorem claim_C6_delete (s : Store) (id : Nat) :
    (s.rows.find? (fun x => x.id == id) = none →
      delete_meal s id =
        .error (.valueError ("Meal with ID " ++ toString id ++ " not found"))) ∧
    (∀ r, s.rows.find? (fun x => x.id == id) = some r → r.deleted = true →
      delete_meal s id =
        .error (.valueError ("Meal with ID " ++ toString id ++ " has been deleted"))) ∧
    (∀ r, s.rows.find? (fun x => x.id == id) = some r → r.deleted = false →
      (∀ x ∈ s.rows, x.meal = r.meal → x.id = id) →
      ∃ s2, delete_meal s id = .ok s2 ∧
        get_meal_by_id s2 id =
          .error (.valueError ("Meal with ID " ++ toString id ++ " has been deleted")) ∧
        get_meal_by_name s2 r.meal =
          .error (.valueError ("Meal with name " ++ r.meal ++ " has been deleted")) ∧
        s2.rows.map (fun x => x.id) = s.rows.map (fun x => x.id)) := by
  refine ⟨?_, ?_, ?_⟩
  · intro h
    unfold delete_meal
    rw [h]
  · intro r h hdel
    unfold delete_meal
    rw [h]
    simp [hdel]
  · intro r hfind hdel hname
    have hid : (r.id == id) = true := by
      have h := List.find?_some hfind
      simpa using h
    have hok : delete_meal s id =
        .ok ⟨s.rows.map (fun x => if x.id == id then { x with deleted := true } else x),
             s.nextId⟩ := by
      unfold delete_meal
      rw [hfind]
      simp only [hdel, Bool.false_eq_true, if_false]
    have hfind2 := find?_map_of_pres
        (fun x => if x.id == id then { x with deleted := true } else x)
        (fun x => x.id == id)
        (by intro x; by_cases hx : (x.id == id) = true <;> simp [hx])
        s.rows r hfind
    simp only [hid, if_true] at hfind2
    have hgid : get_meal_by_id
        ⟨s.rows.map (fun x => if x.id == id then { x with deleted := true } else x),
         s.nextId⟩ id =
        .error (.valueError ("Meal with ID " ++ toString id ++ " has been deleted")) := by
      unfold get_meal_by_id
      rw [hfind2]
      simp
    have hrmem := List.mem_of_find?_eq_some hfind
    have hsome : (s.rows.find? (fun x => x.meal == r.meal)).isSome := by
      rw [List.find?_isSome]
      exact ⟨r, hrmem, by simp⟩
    obtain ⟨r2, hfindn⟩ := Option.isSome_iff_exists.mp hsome
    have hr2meal : r2.meal = r.meal := by
      have h := List.find?_some hfindn
      simpa using h
    have hr2id : (r2.id == id) = true := by
      simp [hname r2 (List.mem_of_find?_eq_some hfindn) hr2meal]
    have hfindn2 := find?_map_of_pres
        (fun x => if x.id == id then { x with deleted := true } else x)
        (fun x => x.meal == r.meal)
        (by intro x; by_cases hx : (x.id == id) = true <;> simp [hx])
        s.rows r2 hfindn
    simp only [hr2id, if_true] at hfindn2
    have hgname : get_meal_by_name
        ⟨s.rows.map (fun x => if x.id == id then { x with deleted := true } else x),
         s.nextId⟩ r.meal =
        .error (.valueError ("Meal with name " ++ r.meal ++ " has been deleted")) := by
      unfold get_meal_by_name
      rw [hfindn2]
      simp [hr2meal]
    have hids : (s.rows.map
        (fun x => if x.id == id then { x with deleted := true } else x)).map (fun x => x.id) =
        s.rows.map (fun x => x.id) :=
      map_map_pres (fun x => x.id)
        (fun x => if x.id == id then { x with deleted := true } else x)
        (by intro x; by_cases hx : (x.id == id) = true <;> simp [hx])
        s.rows
    exact ⟨_, hok, hgid, hgname, hids⟩

/-- Witness for C6: all three branches at concrete stores — deleting an
absent id, an already-deleted id, and a live row (after which both
lookups report it deleted and the row ids are untouched). -/
theorem claim_C6_witness :
    (delete_meal ⟨[], 1⟩ 7 =
      .error (.valueError ("Meal with ID " ++ toString 7 ++ " not found"))) ∧
    (delete_meal ⟨[⟨1, "Pasta", "Italian", 10, "MED", 0, 0, true⟩], 2⟩ 1 =
      .error (.valueError ("Meal with ID " ++ toString 1 ++ " has been deleted"))) ∧
    (∃ s2, delete_meal ⟨[⟨1, "Pasta", "Italian", 10, "MED", 0, 0, false⟩], 2⟩ 1 = .ok s2 ∧
      get_meal_by_id s2 1 =
        .error (.valueError ("Meal with ID " ++ toString 1 ++ " has been deleted")) ∧
      get_meal_by_name s2 "Pasta" =
        .error (.valueError ("Meal with name " ++ "Pasta" ++ " has been deleted")) ∧
      s2.rows.map (fun x => x.id) =
        ([⟨1, "Pasta", "Italian", 10, "MED", 0, 0, false⟩] : List MealRow).map (fun x => x.id)) :=
  ⟨(claim_C6_delete ⟨[], 1⟩ 7).1 rfl,
   (claim_C6_delete ⟨[⟨1, "Pasta", "Italian", 10, "MED", 0, 0, true⟩], 2⟩ 1).2.1
     ⟨1, "Pasta", "Italian", 10, "MED", 0, 0, true⟩ rfl rfl,
   (claim_C6_delete ⟨[⟨1, "Pasta", "Italian", 10, "MED", 0, 0, false⟩], 2⟩ 1).2.2
     ⟨1, "Pasta", "Italian", 10, "MED", 0, 0, false⟩ rfl rfl
     (by intro x hx hm; simp at hx; simp [hx])⟩

/-- Claim C7: `update_meal_stats` checks existence and the deleted flag
first, and a `result` outside win/loss raises the invalid-result
`ValueError` after that check without executing any `UPDATE` — in this
pure embedding an error leaves every store unchanged, so no counter of
any row moves; a soft-deleted id likewise fails (already-deleted
`ValueError`) before any mutation. -/
theorem claim_C7_update_errors (s : Store) (id : Nat) (result : String) :
    (s.rows.find? (fun x => x.id == id) = none →
      update_meal_stats s id result =
        .error (.valueError ("Meal with ID " ++ toString id ++ " not found"))) ∧
    (∀ r, s.rows.find? (fun x => x.id == id) = some r → r.deleted = true →
      update_meal_stats s id result =
        .error (.valueError ("Meal with ID " ++ toString id ++ " has been deleted"))) ∧
    (∀ r, s.rows.find? (fun x => x.id == id) = some r → r.deleted = false →
      result ≠ "win" → result ≠ "loss" →
      update_meal_stats s id result =
        .error (.valueError ("Invalid result: " ++ result ++ ". Expected win or loss."))) := by
  refine ⟨?_, ?_, ?_⟩
  · intro h
    unfold update_meal_stats
    rw [h]
  · intro r h hdel
    unfold update_meal_stats
    rw [h]
    simp [hdel]
  · intro r h hdel h1 h2
    unfold update_meal_stats
    rw [h]
    simp only [hdel, Bool.false_eq_true, if_false]
    rw [if_neg (by simpa using h1), if_neg (by simpa using h2)]

/-- Witness for C7: an unknown id, a deleted id, and the invalid result
"draw" on a live row. -/
theorem claim_C7_witness :
    (update_meal_stats ⟨[], 1⟩ 9 "draw" =
      .error (.valueError ("Meal with ID " ++ toString 9 ++ " not found"))) ∧
    (update_meal_stats ⟨[⟨1, "Pasta", "Italian", 10, "MED", 3, 2, true⟩], 2⟩ 1 "win" =
      .error (.valueError ("Meal with ID " ++ toString 1 ++ " has been deleted"))) ∧
    (update_meal_stats ⟨[⟨1, "Pasta", "Italian", 10, "MED", 3, 2, false⟩], 2⟩ 1 "draw" =
      .error (.valueError ("Invalid result: " ++ "draw" ++ ". Expected win or loss."))) :=
  ⟨(claim_C7_update_errors ⟨[], 1⟩ 9 "draw").1 rfl,
   (claim_C7_update_errors ⟨[⟨1, "Pasta", "Italian", 10, "MED", 3, 2, true⟩], 2⟩ 1 "win").2.1
     ⟨1, "Pasta", "Italian", 10, "MED", 3, 2, true⟩ rfl rfl,
   (claim_C7_update_errors ⟨[⟨1, "Pasta", "Italian", 10, "MED", 3, 2, false⟩], 2⟩ 1 "draw").2.2
     ⟨1, "Pasta", "Italian", 10, "MED", 3, 2, false⟩ rfl rfl (by decide) (by decide)⟩

/-- A client-visible mutation of the catalog store. -/
inductive Op where
  | createOp (meal cuisine : String) (price : ℚ) (difficulty : String)
  | deleteOp (id : Nat)
  | updateStatsOp (id : Nat) (result : String)

/-- Running one operation; a raised error leaves the store unchanged. -/
def applyOp (s : Store) : Op → Store
  | .createOp m c p d => ((create_meal s m c p d).toOption).getD s
  | .deleteOp i => ((delete_meal s i).toOption).getD s
  | .updateStatsOp i res => ((update_meal_stats s i res).toOption).getD s

/-- The store reached by a sequence of public operations starting from
the empty table. -/
def runOps (ops : List Op) : Store := ops.foldl applyOp emptyStore

/-- The counter invariant: every row satisfies `wins ≤ battles` (the
counters are naturals, so `0 ≤ wins` is inherent). -/
def StatsInv (s : Store) : Prop := ∀ r ∈ s.rows, r.wins ≤ r.battles

/-- A successful `create_meal` appends exactly one fresh row with both
counters at 0 and the deleted flag clear. -/
lemma create_meal_ok_rows {s s2 : Store} {m c : String} {p : ℚ} {d : String}
    (hc : create_meal s m c p d = .ok s2) :
    s2.rows = s.rows ++ [⟨s.nextId, m, c, p, d, 0, 0, false⟩] := by
  unfold create_meal at hc
  split_ifs at hc <;> cases hc <;> rfl

/-- A successful `delete_meal` only rewrites the deleted flag of the
targeted rows. -/
lemma delete_meal_ok_rows {s s2 : Store} {i : Nat}
    (hc : delete_meal s i = .ok s2) :
    s2.rows = s.rows.map (fun r => if r.id == i then { r with deleted := true } else r) := by
  unfold delete_meal at hc
  split at hc
  · cases hc
  · split at hc
    · cases hc
    · cases hc
      rfl

/-- A successful `update_meal_stats` performs exactly one of the two
`UPDATE` statements. -/
lemma update_meal_stats_ok_rows {s s2 : Store} {i : Nat} {res : String}
    (hc : update_meal_stats s i res = .ok s2) :
    s2.rows = s.rows.map (fun r =>
        if r.id == i then { r with battles := r.battles + 1, wins := r.wins + 1 } else r) ∨
    s2.rows = s.rows.map (fun r =>
        if r.id == i then { r with battles := r.battles + 1 } else r) := by
  unfold update_meal_stats at hc
  split at hc
  · cases hc
  · split at hc
    · cases hc
    · split at hc
      · cases hc
        exact Or.inl rfl
      · split at hc
        · cases hc
          exact Or.inr rfl
        · cases hc

/-- Every single public operation preserves the counter invariant. -/
lemma statsInv_applyOp (s : Store) (op : Op) (h : StatsInv s) :
    StatsInv (applyOp s op) := by
  cases op with
  | createOp m c p d =>
      cases hc : create_meal s m c p d with
      | error e =>
          have he : applyOp s (Op.createOp m c p d) = s := by
            show (create_meal s m c p d).toOption.getD s = s
            rw [hc]
            rfl
          rw [he]
          exact h
      | ok s2 =>
          have he : applyOp s (Op.createOp m c p d) = s2 := by
            show (create_meal s m c p d).toOption.getD s = s2
            rw [hc]
            rfl
          rw [he]
          intro r hr
          rw [create_meal_ok_rows hc] at hr
          rcases List.mem_append.mp hr with h1 | h1
          · exact h r h1
          · simp only [List.mem_singleton] at h1
            subst h1
            exact le_refl 0
  | deleteOp i =>
      cases hc : delete_meal s i with
      | error e =>
          have he : applyOp s (Op.deleteOp i) = s := by
            show (delete_meal s i).toOption.getD s = s
            rw [hc]
            rfl
          rw [he]
          exact h
      | ok s2 =>
          have he : applyOp s (Op.deleteOp i) = s2 := by
            show (delete_meal s i).toOption.getD s = s2
            rw [hc]
            rfl
          rw [he]
          intro r hr
          rw [delete_meal_ok_rows hc] at hr
          obtain ⟨x, hx, hfx⟩ := List.mem_map.mp hr
          subst hfx
          by_cases hxi : (x.id == i) = true
          · rw [if_pos hxi]
            exact h x hx
          · rw [if_neg hxi]
            exact h x hx
  | updateStatsOp i res =>
      cases hc : update_meal_stats s i res with
      | error e =>
          have he : applyOp s (Op.updateStatsOp i res) = s := by
            show (update_meal_stats s i res).toOption.getD s = s
            rw [hc]
            rfl
          rw [he]
          exact h
      | ok s2 =>
          have he : applyOp s (Op.updateStatsOp i res) = s2 := by
            show (update_meal_stats s i res).toOption.getD s = s2
            rw [hc]
            rfl
          rw [he]
          intro r hr
          rcases update_meal_stats_ok_rows hc with hrows | hrows <;>
            rw [hrows] at hr <;>
            obtain ⟨x, hx, hfx⟩ := List.mem_map.mp hr <;>
            subst hfx
          · by_cases hxi : (x.id == i) = true
            · rw [if_pos hxi]
              exact Nat.succ_le_succ (h x hx)
            · rw [if_neg hxi]
              exact h x hx
          · by_cases hxi : (x.id == i) = true
            · rw [if_pos hxi]
              exact le_trans (h x hx) (Nat.le_succ _)
            · rw [if_neg hxi]
              exact h x hx

/-- Claim C8: `0 ≤ wins ≤ battles` holds for every row in every store
reachable through the public operations from the empty table — rows are
created with both counters 0, `wins` increments only together with
`battles`, and nothing ever decrements either counter (the lower bound
`0 ≤ wins` is inherent in the natural-number counters). -/
theorem claim_C8_stats_invariant (ops : List Op) : StatsInv (runOps ops) := by
  unfold runOps
  suffices h : ∀ s, StatsInv s → StatsInv (List.foldl applyOp s ops) from
    h emptyStore (by intro r hr; simp [emptyStore] at hr)
  induction ops with
  | nil => intro s hs; exact hs
  | cons op rest ih =>
      intro s hs
      rw [List.foldl_cons]
      exact ih (applyOp s op) (statsInv_applyOp s op hs)

/-- Witness for C8: a concrete operation history (create, win, loss,
one invalid update). -/
theorem claim_C8_witness :
    StatsInv (runOps [Op.createOp "Pasta" "Italian" 10 "MED",
                      Op.updateStatsOp 1 "win",
                      Op.updateStatsOp 1 "loss",
                      Op.updateStatsOp 1 "draw"]) :=
  claim_C8_stats_invariant [Op.createOp "Pasta" "Italian" 10 "MED",
                            Op.updateStatsOp 1 "win",
                            Op.updateStatsOp 1 "loss",
                            Op.updateStatsOp 1 "draw"]

/-- A successful `Meal` construction pins down every field and implies
the constructor invariant (`0 ≤ price`, valid difficulty). -/
lemma make_ok {id : Nat} {meal cuisine : String} {price : ℚ}
    {difficulty : String} {m : Meal}
    (hm : Meal.make id meal cuisine price difficulty = .ok m) :
    0 ≤ m.price ∧ validDifficulty m.difficulty = true ∧
    m = ⟨id, meal, cuisine, price, difficulty⟩ := by
  unfold Meal.make at hm
  by_cases h1 : price < 0
  · rw [if_pos h1] at hm
    cases hm
  · rw [if_neg h1] at hm
    by_cases h2 : validDifficulty difficulty = true
    · rw [if_neg (by simp [h2])] at hm
      simp only [Except.ok.injEq] at hm
      subst hm
      exact ⟨not_lt.mp h1, h2, rfl⟩
    · rw [if_pos (by simpa using h2)] at hm
      cases hm

/-- Counterexample to claim C9 as stated: the `Meal` constructor accepts
`price = 0`, which is not strictly positive — `__post_init__` only
rejects `price < 0`. -/
theorem claim_C9_counterexample :
    Meal.make 1 "Bread" "French" 0 "LOW" = .ok ⟨1, "Bread", "French", 0, "LOW"⟩ := by
  unfold Meal.make
  rw [if_neg (by norm_num), if_neg (by decide)]

/-- Claim C9 as amended: constructing a `Meal` succeeds exactly when
`price ≥ 0` and the difficulty is in LOW/MED/HIGH (so a negative price
or a bad difficulty fails fast, independently of the store-level
validation, but `price = 0` is accepted — strict positivity is enforced
only by `create_meal`), and a successfully constructed value carries
exactly the given fields. -/
theorem claim_C9_constructor (id : Nat) (meal cuisine : String) (price : ℚ)
    (difficulty : String) :
    ((Meal.make id meal cuisine price difficulty).isOk = true ↔
      0 ≤ price ∧ validDifficulty difficulty = true) ∧
    (∀ m, Meal.make id meal cuisine price difficulty = .ok m →
      0 ≤ m.price ∧ validDifficulty m.difficulty = true ∧
      m.id = id ∧ m.meal = meal ∧ m.cuisine = cuisine ∧
      m.price = price ∧ m.difficulty = difficulty) := by
  constructor
  · unfold Meal.make
    split_ifs with h1 h2
    · simp [Except.isOk, Except.toBool, not_le.mpr h1]
    · simp [Except.isOk, Except.toBool, not_lt.mp h1, h2]
    · simp [Except.isOk, Except.toBool, h2]
  · intro m hm
    obtain ⟨hp, hd, hfields⟩ := make_ok hm
    subst hfields
    exact ⟨hp, hd, rfl, rfl, rfl, rfl, rfl⟩

/-- Witness for C9 amended: the constructor accepts price 2 with
difficulty LOW. -/
theorem claim_C9_witness :
    (0 : ℚ) ≤ 2 ∧ validDifficulty "LOW" = true ∧
    (Meal.make 1 "Bread" "French" 2 "LOW").isOk = true :=
  ⟨by norm_num, rfl,
   (claim_C9_constructor 1 "Bread" "French" 2 "LOW").1.mpr ⟨by norm_num, rfl⟩⟩

/-- Claim C10: both lookups rebuild the row through the validating
`Meal` constructor, so on every store state — corrupt rows included — a
successful lookup returns a `Meal` satisfying the constructor invariant
(difficulty in LOW/MED/HIGH, price in the accepted range of the constructor,
`0 ≤ price`), and a non-deleted row violating the invariant makes the
lookup raise a `ValueError` instead of returning an invalid `Meal`. -/
theorem claim_C10_lookup_validates (s : Store) (id : Nat) (name : String) :
    (∀ m, get_meal_by_id s id = .ok m →
      0 ≤ m.price ∧ validDifficulty m.difficulty = true) ∧
    (∀ m, get_meal_by_name s name = .ok m →
      0 ≤ m.price ∧ validDifficulty m.difficulty = true) ∧
    (∀ r, s.rows.find? (fun x => x.id == id) = some r → r.deleted = false →
      (r.price < 0 ∨ validDifficulty r.difficulty = false) →
      ∃ msg, get_meal_by_id s id = .error (.valueError msg)) ∧
    (∀ r, s.rows.find? (fun x => x.meal == name) = some r → r.deleted = false →
      (r.price < 0 ∨ validDifficulty r.difficulty = false) →
      ∃ msg, get_meal_by_name s name = .error (.valueError msg)) := by
  refine ⟨?_, ?_, ?_, ?_⟩
  · intro m hm
    unfold get_meal_by_id at hm
    split at hm
    · split at hm
      · cases hm
      · obtain ⟨hp, hd, _⟩ := make_ok hm
        exact ⟨hp, hd⟩
    · cases hm
  · intro m hm
    unfold get_meal_by_name at hm
    split at hm
    · split at hm
      · cases hm
      · obtain ⟨hp, hd, _⟩ := make_ok hm
        exact ⟨hp, hd⟩
    · cases hm
  · intro r hfind hdel hbad
    unfold get_meal_by_id
    rw [hfind]
    simp only [hdel, Bool.false_eq_true, if_false]
    unfold Meal.make
    by_cases hp : r.price < 0
    · rw [if_pos hp]
      exact ⟨_, rfl⟩
    · rcases hbad with hbad | hbad
      · exact absurd hbad hp
      · rw [if_neg hp, if_pos (by simp [hbad])]
        exact ⟨_, rfl⟩
  · intro r hfind hdel hbad
    unfold get_meal_by_name
    rw [hfind]
    simp only [hdel, Bool.false_eq_true, if_false]
    unfold Meal.make
    by_cases hp : r.price < 0
    · rw [if_pos hp]
      exact ⟨_, rfl⟩
    · rcases hbad with hbad | hbad
      · exact absurd hbad hp
      · rw [if_neg hp, if_pos (by simp [hbad])]
        exact ⟨_, rfl⟩

/-- Witness for C10: a corrupt non-deleted row with difficulty "EASY"
makes the id lookup fail with a `ValueError`. -/
theorem claim_C10_witness :
    ∃ msg, get_meal_by_id ⟨[⟨1, "Mystery", "Fusion", 5, "EASY", 0, 0, false⟩], 2⟩ 1 =
      .error (.valueError msg) :=
  (claim_C10_lookup_validates ⟨[⟨1, "Mystery", "Fusion", 5, "EASY", 0, 0, false⟩], 2⟩ 1 "Mystery").2.2.1
    ⟨1, "Mystery", "Fusion", 5, "EASY", 0, 0, false⟩ rfl rfl (Or.inr rfl)

end MealMax
